import Mathlib

set_option maxRecDepth 100000

/-!
Verification of the CRC-8 engine of `crc-any` (`src/crc_u8.rs`).

The Rust struct `CRCu8` and its methods are shallowly embedded: `u8` values
become `Nat` with an explicit `% 256` wherever a `u8` left shift can discard
high bits; the 256-entry lookup array becomes the function from index to the
entry the construction loop writes at that index; the `debug_assert!` width
guard of `create_crc` becomes an `Except` construction-time error.
-/

/-- The mutable CRC engine state, field for field the Rust struct `CRCu8`. -/
structure CRCu8 where
  by_table : Bool
  poly : Nat
  lookup_table : Nat → Nat
  sum : Nat
  bits : Nat
  high_bit : Nat
  mask : Nat
  initial : Nat
  final_xor : Nat
  reflect : Bool

/-- The while-loop of `CRCu8::reflect_function`: per round, if bit `i` of `n`
is set then set bit `j` of `out`; then `j <<= 1` (a `u8` shift, hence mod 256)
and `i >>= 1`, stopping once `i = 0`.  The loop runs at most 8 productive
rounds for any `u8` value of `i`, so a fuel of 8 is exact. -/
def reflectLoop : Nat → Nat → Nat → Nat → Nat → Nat
  | 0, _, _, _, out => out
  | fuel + 1, n, i, j, out =>
    if i = 0 then out
    else reflectLoop fuel n (i >>> 1) ((j <<< 1) % 256)
      (if n &&& i ≠ 0 then out ||| j else out)

/-- `CRCu8::reflect_function(high_bit, n)`: mirror the bits of `n` across the
width whose top bit is `high_bit`. -/
def CRCu8.reflect_function (high_bit n : Nat) : Nat :=
  reflectLoop 8 n high_bit 1 0

/-- One round of the inner while-loop shared by both bitwise branches of
`CRCu8::digest`: save the top bit of `sum`, shift `sum` left (a `u8` shift,
mod 256), flip the saved bit if the current input bit is set, and if the
resulting bit is nonzero xor the polynomial into `sum`. -/
def CRCu8.shiftStep (poly high_bit sum : Nat) (inputBitSet : Bool) : Nat :=
  let bit := sum &&& high_bit
  let sum2 := (sum <<< 1) % 256
  let bit2 := if inputBitSet then bit ^^^ high_bit else bit
  if bit2 ≠ 0 then sum2 ^^^ poly else sum2

/-- The eight values taken by the loop counter `i` of the bitwise digest
loops: `0x80` shifted right one place per round until it reaches zero. -/
def digestMasks : List Nat := [0x80, 0x40, 0x20, 0x10, 0x08, 0x04, 0x02, 0x01]

/-- One input byte folded into `sum` by the bitwise (non-table) digest loop:
eight `shiftStep` rounds, round `i` consuming the input bit `n &&& i`. -/
def CRCu8.byteStep (poly high_bit sum n : Nat) : Nat :=
  digestMasks.foldl (fun s i => CRCu8.shiftStep poly high_bit s (n &&& i != 0)) sum

/-- `CRCu8::digest`: fold the data bytes into `sum`.  Table path: one lookup
per byte at index `sum ^ n`.  Bitwise reflected path: each byte is first
mirrored with `reflect_function(0x80, n)`, then consumed by the same
bit-by-bit loop as the non-reflected path. -/
def CRCu8.digest (e : CRCu8) (data : List Nat) : CRCu8 :=
  if e.by_table then
    { e with sum := data.foldl (fun s n => e.lookup_table (s ^^^ n)) e.sum }
  else if e.reflect then
    { e with
      sum := data.foldl
        (fun s n => CRCu8.byteStep e.poly e.high_bit s (CRCu8.reflect_function 0x80 n)) e.sum }
  else
    { e with
      sum := data.foldl (fun s n => CRCu8.byteStep e.poly e.high_bit s n) e.sum }

/-- `CRCu8::reset`: set `sum` back to the stored `initial` field. -/
def CRCu8.reset (e : CRCu8) : CRCu8 :=
  { e with sum := e.initial }

/-- `CRCu8::get_crc`: the visible checksum.  Table path and non-reflected
bitwise path xor `final_xor` into `sum` and mask; the reflected bitwise path
first mirrors `sum` with `reflect_function(high_bit, sum)`. -/
def CRCu8.get_crc (e : CRCu8) : Nat :=
  if e.by_table then (e.sum ^^^ e.final_xor) &&& e.mask
  else if e.reflect then
    (CRCu8.reflect_function e.high_bit e.sum ^^^ e.final_xor) &&& e.mask
  else (e.sum ^^^ e.final_xor) &&& e.mask

/-- One round of the entry loop of `CRCu8::crc_table`: shift `v` left (a `u8`
shift, mod 256) and xor the polynomial in when the bit shifted out was set. -/
def crcTableStep (poly v : Nat) : Nat :=
  if v &&& 0x80 = 0 then (v <<< 1) % 256 else ((v <<< 1) % 256) ^^^ poly

/-- `CRCu8::crc_table(poly)`: entry `i` is `i` pushed through eight
`crcTableStep` rounds, finally masked with `0xFF`. -/
def CRCu8.crc_table (poly : Nat) : Nat → Nat :=
  fun i => (crcTableStep poly)^[8] i &&& 0xFF

/-- One round of the entry loop of `CRCu8::crc_reflect_table`: shift `v`
right and xor the (already reflected) polynomial in when the bit shifted out
was set. -/
def crcReflectTableStep (poly_rev v : Nat) : Nat :=
  if v &&& 1 ≠ 0 then (v >>> 1) ^^^ poly_rev else v >>> 1

/-- `CRCu8::crc_reflect_table(poly_rev)`: entry `i` is `i` pushed through
eight `crcReflectTableStep` rounds. -/
def CRCu8.crc_reflect_table (poly_rev : Nat) : Nat → Nat :=
  fun i => (crcReflectTableStep poly_rev)^[8] i

/-- `CRCu8::create`: derive `high_bit` and `mask` from the width, store the
reflected initial as the starting `sum` when `reflect` is set, and (bitwise
path only) reflect the polynomial once at construction. -/
def CRCu8.create (by_table : Bool) (lookup_table : Nat → Nat)
    (poly bits initial final_xor : Nat) (reflect : Bool) : CRCu8 :=
  let high_bit := (1 <<< (bits - 1)) % 256
  let mask := (((high_bit - 1) <<< 1) % 256) ||| 1
  let sum := if reflect then CRCu8.reflect_function high_bit initial else initial
  let poly2 := if !by_table && reflect then CRCu8.reflect_function high_bit poly else poly
  { by_table := by_table, poly := poly2, lookup_table := lookup_table, sum := sum,
    bits := bits, high_bit := high_bit, mask := mask, initial := initial,
    final_xor := final_xor, reflect := reflect }

/-- `CRCu8::create_crc_with_exists_lookup_table`: construction on the table
path, with the literal polynomial field zeroed. -/
def CRCu8.create_crc_with_exists_lookup_table (lookup_table : Nat → Nat)
    (bits initial final_xor : Nat) (reflect : Bool) : CRCu8 :=
  CRCu8.create true lookup_table 0 bits initial final_xor reflect

/-- `CRCu8::create_crc`: the width guard (`debug_assert!(bits <= 8 && bits > 0)`,
modelled as a construction-time error), then dispatch: widths that are a
multiple of 8 synthesize a lookup table (normal or reflected as requested),
other widths take the bitwise path with an all-zero table. -/
def CRCu8.create_crc (poly bits initial final_xor : Nat) (reflect : Bool) :
    Except String CRCu8 :=
  if bits ≤ 8 ∧ 0 < bits then
    if bits % 8 = 0 then
      Except.ok (CRCu8.create_crc_with_exists_lookup_table
        (if reflect then CRCu8.crc_reflect_table poly else CRCu8.crc_table poly)
        bits initial final_xor reflect)
    else
      Except.ok (CRCu8.create false (fun _ => 0) poly bits initial final_xor reflect)
  else
    Except.error "CRCu8 width must be within 1 and 8"

/-- Engine states reachable through the public API: a successful
`create_crc` followed by any sequence of `digest` and `reset` calls. -/
inductive Reachable : CRCu8 → Prop
  | mk_create (poly bits initial final_xor : Nat) (reflect : Bool) (e : CRCu8) :
      CRCu8.create_crc poly bits initial final_xor reflect = Except.ok e → Reachable e
  | step_digest (e : CRCu8) (data : List Nat) : Reachable e → Reachable (CRCu8.digest e data)
  | step_reset (e : CRCu8) : Reachable e → Reachable (CRCu8.reset e)

/-- The ASCII bytes of the standard check input `"123456789"`. -/
def checkInput : List Nat := [49, 50, 51, 52, 53, 54, 55, 56, 57]

/-- Claim C3: digesting the ASCII bytes of `"123456789"` into freshly built
engines yields the standard check values: `(0x07, 8, 0x00, 0x00, false)`
gives `0xF4`, `(0x1D, 8, 0xFD, 0x00, false)` gives `0x7E`, and
`(0x9C, 8, 0x00, 0x00, true)` gives `0x15`. -/
theorem crc_check_values :
    (CRCu8.create_crc 0x07 8 0x00 0x00 false).map
      (fun e => CRCu8.get_crc (CRCu8.digest e checkInput)) = Except.ok 0xF4 ∧
    (CRCu8.create_crc 0x1D 8 0xFD 0x00 false).map
      (fun e => CRCu8.get_crc (CRCu8.digest e checkInput)) = Except.ok 0x7E ∧
    (CRCu8.create_crc 0x9C 8 0x00 0x00 true).map
      (fun e => CRCu8.get_crc (CRCu8.digest e checkInput)) = Except.ok 0x15 :=
  ⟨rfl, rfl, rfl⟩

/-- Claim C1 (code bug): `reset` assigns the raw `initial` field to `sum`,
not the construction-time starting sum, which for a reflected engine is the
reflected initial.  At `create_crc(0x9C, 8, 0x01, 0x00, true)` the checksum
immediately after construction is `0x80`, but after a digest followed by
`reset` the checksum reads `0x01`, so the reset round-trip fails. -/
theorem crc_reset_raw_initial_divergence :
    (CRCu8.create_crc 0x9C 8 0x01 0x00 true).map
      (fun e => (CRCu8.get_crc e, CRCu8.get_crc (CRCu8.reset (CRCu8.digest e [0x31])))) =
      Except.ok (0x80, 0x01) ∧ (0x80 : Nat) ≠ 0x01 :=
  ⟨rfl, by decide⟩

/-- Claim C4 (code bug): for width 8, reflect = true, polynomial `0x9C`,
initial `0x01`, final xor `0x00` and the single input byte `0x00`, the
table-driven engine returns `0x9C` while the bitwise engine built from the
same parameters returns `0x72`: the cross-equivalence fails because `create`
stores the reflected initial as `sum` on both paths although the bitwise
reflected loop keeps its register in the un-reflected convention. -/
theorem crc_table_bitwise_divergence :
    (CRCu8.create_crc 0x9C 8 0x01 0x00 true).map
      (fun e => CRCu8.get_crc (CRCu8.digest e [0x00])) = Except.ok 0x9C ∧
    CRCu8.get_crc
      (CRCu8.digest (CRCu8.create false (fun _ => 0) 0x9C 8 0x01 0x00 true) [0x00]) = 0x72 ∧
    (0x9C : Nat) ≠ 0x72 :=
  ⟨rfl, rfl, by decide⟩

/-- Claim C2: a width outside `1..=8` makes `create_crc` fail at
construction time with an error, and a successful construction stores the
requested width unchanged in the `bits` field (never clamped or
substituted). -/
theorem create_crc_width_guard (poly bits initial final_xor : Nat) (reflect : Bool) :
    (¬(bits ≤ 8 ∧ 0 < bits) →
      CRCu8.create_crc poly bits initial final_xor reflect =
        Except.error "CRCu8 width must be within 1 and 8") ∧
    (∀ e, CRCu8.create_crc poly bits initial final_xor reflect = Except.ok e →
      e.bits = bits) := by
  constructor
  · intro h
    simp [CRCu8.create_crc, h]
  · intro e h
    unfold CRCu8.create_crc at h
    split at h
    · split at h
      · cases h
        rfl
      · cases h
        rfl
    · cases h

/-- Witness for C2 at a concrete out-of-range width. -/
theorem create_crc_width_guard_witness :
    CRCu8.create_crc 0x07 9 0x00 0x00 false =
      Except.error "CRCu8 width must be within 1 and 8" :=
  (create_crc_width_guard 0x07 9 0x00 0x00 false).1 (by decide)

/-- Claim C5: digesting `A` then `B` leaves the engine in exactly the state
a single digest of `A ++ B` leaves it in, from any starting state. -/
theorem digest_append_eq (e : CRCu8) (A B : List Nat) :
    CRCu8.digest (CRCu8.digest e A) B = CRCu8.digest e (A ++ B) := by
  by_cases h1 : e.by_table <;> by_cases h2 : e.reflect <;>
    simp [CRCu8.digest, h1, h2, List.foldl_append]

/-- Claim C9: `digest` mutates only `sum`; every other field is unchanged. -/
theorem digest_frame (e : CRCu8) (data : List Nat) :
    (CRCu8.digest e data).by_table = e.by_table ∧
    (CRCu8.digest e data).poly = e.poly ∧
    (CRCu8.digest e data).lookup_table = e.lookup_table ∧
    (CRCu8.digest e data).bits = e.bits ∧
    (CRCu8.digest e data).high_bit = e.high_bit ∧
    (CRCu8.digest e data).mask = e.mask ∧
    (CRCu8.digest e data).initial = e.initial ∧
    (CRCu8.digest e data).final_xor = e.final_xor ∧
    (CRCu8.digest e data).reflect = e.reflect := by
  by_cases h1 : e.by_table <;> by_cases h2 : e.reflect <;>
    simp [CRCu8.digest, h1, h2]

/-- Claim C7: `digest` is total and digesting the empty sequence leaves the
engine unchanged; the engine `create_crc(0x03, 3, 0x00, 0x07, false)` with
nothing digested reads `initial XOR final_xor` masked to 3 bits, `0x07`. -/
theorem digest_empty_and_crc3gsm :
    (∀ e : CRCu8, CRCu8.digest e [] = e) ∧
    (CRCu8.create_crc 0x03 3 0x00 0x07 false).map CRCu8.get_crc = Except.ok 0x07 := by
  constructor
  · intro e
    unfold CRCu8.digest
    split
    · rfl
    · split <;> rfl
  · rfl

/-- Any value already masked with an 8-bit-bounded mask has empty
intersection with the 8-bit complement of that mask. -/
theorem and_mask_and_compl_eq_zero (x m : Nat) (hm : m < 256) :
    (x &&& m) &&& (0xFF ^^^ m) = 0 := by
  apply Nat.eq_of_testBit_eq
  intro i
  have h255 : (0xFF : Nat) = 2 ^ 8 - 1 := by norm_num
  simp only [Nat.testBit_and, Nat.testBit_xor, Nat.zero_testBit, h255,
    Nat.testBit_two_pow_sub_one]
  by_cases hmi : m.testBit i
  · have hi : i < 8 := by
      by_contra hge
      have hlt : m < 2 ^ i := by
        calc m < 256 := hm
        _ = 2 ^ 8 := by norm_num
        _ ≤ 2 ^ i := Nat.pow_le_pow_right (by norm_num) (by omega)
      rw [Nat.testBit_lt_two_pow hlt] at hmi
      exact Bool.noConfusion hmi
    simp [hmi, hi]
  · simp [hmi]

/-- `digest` leaves the `mask` field unchanged. -/
theorem digest_mask_eq (e : CRCu8) (data : List Nat) :
    (CRCu8.digest e data).mask = e.mask := by
  by_cases h1 : e.by_table <;> by_cases h2 : e.reflect <;>
    simp [CRCu8.digest, h1, h2]

/-- Every reachable engine has a `mask` below 256: construction builds it as
an 8-bit value and `digest`/`reset` do not touch it. -/
theorem reachable_mask_lt (e : CRCu8) (h : Reachable e) : e.mask < 256 := by
  induction h with
  | mk_create poly bits initial final_xor reflect e hcr =>
      have h256 : (256 : Nat) = 2 ^ 8 := by norm_num
      unfold CRCu8.create_crc at hcr
      split at hcr
      · split at hcr
        · cases hcr
          show ((((((1 <<< (bits - 1)) % 256) - 1) <<< 1) % 256) ||| 1) < 256
          rw [h256]
          exact Nat.or_lt_two_pow (by omega) (by norm_num)
        · cases hcr
          show ((((((1 <<< (bits - 1)) % 256) - 1) <<< 1) % 256) ||| 1) < 256
          rw [h256]
          exact Nat.or_lt_two_pow (by omega) (by norm_num)
      · cases hcr
  | step_digest e data _ ih => rw [digest_mask_eq]; exact ih
  | step_reset e _ ih => exact ih

/-- Claim C6: on every engine reachable through the public API, the value of
`get_crc` ANDed with the 8-bit complement of `mask` is zero — every bit above
the low `width` bits of the returned byte is clear. -/
theorem get_crc_masked_reachable (e : CRCu8) (h : Reachable e) :
    CRCu8.get_crc e &&& (0xFF ^^^ e.mask) = 0 := by
  have hm : e.mask < 256 := reachable_mask_lt e h
  unfold CRCu8.get_crc
  split
  · exact and_mask_and_compl_eq_zero _ _ hm
  · split
    · exact and_mask_and_compl_eq_zero _ _ hm
    · exact and_mask_and_compl_eq_zero _ _ hm

/-- Witness for C6 on a concrete reachable engine. -/
theorem get_crc_masked_reachable_witness :
    CRCu8.get_crc (CRCu8.reset (CRCu8.digest
        (CRCu8.create_crc_with_exists_lookup_table (CRCu8.crc_table 0x07) 8 0x00 0x00 false)
        [0x31])) &&&
      (0xFF ^^^ (CRCu8.reset (CRCu8.digest
        (CRCu8.create_crc_with_exists_lookup_table (CRCu8.crc_table 0x07) 8 0x00 0x00 false)
        [0x31])).mask) = 0 :=
  get_crc_masked_reachable _
    (Reachable.step_reset _ (Reachable.step_digest _ _
      (Reachable.mk_create 0x07 8 0x00 0x00 false _ rfl)))

/-- Claim C8: `reflect_function` is an involution on width-bit values: for a
width in `1..=8` with `h = 1 <<< (width - 1)`, reflecting twice any `n` at
most `((h - 1) <<< 1) ||| 1` gives `n` back. -/
theorem reflect_involution (bits n : Nat) (h1 : 0 < bits) (h2 : bits ≤ 8)
    (h3 : n ≤ ((((1 <<< (bits - 1)) - 1) <<< 1) ||| 1)) :
    CRCu8.reflect_function (1 <<< (bits - 1))
      (CRCu8.reflect_function (1 <<< (bits - 1)) n) = n := by
  have key : ∀ b, b < 8 → ∀ m, m < 256 →
      (m ≤ ((((1 <<< b) - 1) <<< 1) ||| 1) →
        CRCu8.reflect_function (1 <<< b) (CRCu8.reflect_function (1 <<< b) m) = m) := by
    decide
  have hmask : ((((1 <<< (bits - 1)) - 1) <<< 1) ||| 1) ≤ 255 := by
    interval_cases bits <;> decide
  exact key (bits - 1) (by omega) n (by omega) h3

/-- Witness for C8 at width 5, `n = 0x15`. -/
theorem reflect_involution_witness :
    CRCu8.reflect_function (1 <<< 4) (CRCu8.reflect_function (1 <<< 4) 0x15) = 0x15 :=
  reflect_involution 5 0x15 (by decide) (by decide) (by decide)

/-- Claim C10: for a width in `1..=8` with `h = 1 <<< (width - 1)` and any
`u8` input `n`, `reflect_function h n` fits inside the low `width` bits, bits
of `n` above the width do not influence it, and consequently the starting
`sum` stored by `create` for a reflected engine is already under `mask`
(masking it is a no-op). -/
theorem reflect_in_range (bits n : Nat) (h1 : 0 < bits) (h2 : bits ≤ 8)
    (hn : n < 256) :
    CRCu8.reflect_function (1 <<< (bits - 1)) n ≤
      ((((1 <<< (bits - 1)) - 1) <<< 1) ||| 1) ∧
    CRCu8.reflect_function (1 <<< (bits - 1)) n =
      CRCu8.reflect_function (1 <<< (bits - 1))
        (n &&& ((((1 <<< (bits - 1)) - 1) <<< 1) ||| 1)) ∧
    (∀ (bt : Bool) (tbl : Nat → Nat) (p f : Nat),
      (CRCu8.create bt tbl p bits n f true).sum &&& (CRCu8.create bt tbl p bits n f true).mask =
        (CRCu8.create bt tbl p bits n f true).sum) := by
  have key : ∀ b, b < 8 → ∀ m, m < 256 →
      CRCu8.reflect_function (1 <<< b) m ≤ ((((1 <<< b) - 1) <<< 1) ||| 1) ∧
      CRCu8.reflect_function (1 <<< b) m =
        CRCu8.reflect_function (1 <<< b) (m &&& ((((1 <<< b) - 1) <<< 1) ||| 1)) ∧
      CRCu8.reflect_function ((1 <<< b) % 256) m &&&
          ((((((1 <<< b) % 256) - 1) <<< 1) % 256) ||| 1) =
        CRCu8.reflect_function ((1 <<< b) % 256) m := by
    decide
  obtain ⟨k1, k2, k3⟩ := key (bits - 1) (by omega) n hn
  refine ⟨k1, k2, ?_⟩
  intro bt tbl p f
  simpa [CRCu8.create] using k3

/-- Witness for C10 at width 4, `n = 0xAB`. -/
theorem reflect_in_range_witness :
    CRCu8.reflect_function (1 <<< 3) 0xAB ≤ ((((1 <<< 3) - 1) <<< 1) ||| 1) ∧
    CRCu8.reflect_function (1 <<< 3) 0xAB =
      CRCu8.reflect_function (1 <<< 3) (0xAB &&& ((((1 <<< 3) - 1) <<< 1) ||| 1)) ∧
    (∀ (bt : Bool) (tbl : Nat → Nat) (p f : Nat),
      (CRCu8.create bt tbl p 4 0xAB f true).sum &&& (CRCu8.create bt tbl p 4 0xAB f true).mask =
        (CRCu8.create bt tbl p 4 0xAB f true).sum) :=
  reflect_in_range 4 0xAB (by decide) (by decide) (by decide)
